import Mathlib

/-!
Shallow embedding of `mbz2cue.py`: a MusicBrainz tracklist extractor and
cue-sheet encoder.  Python strings are modelled as Lean `String`s (with
the primitive operations `strip`, `split`, `replace`, `int`, `str` and
zero-padding re-implemented structurally over `List Char` so that every
definition evaluates inside the kernel), the parsed HTML document as a
small record type holding exactly the pieces the script queries, and the
side effects (file writes, debug prints, uncaught exceptions) as explicit
return values: a list of `(filename, content)` pairs for files written, a
list of `(level, message)` pairs for debug output, and a `Bool` that is
`false` when an uncaught Python exception (ValueError from `int`,
IndexError from `[0]`) aborts the run.
-/

namespace Mbz2cue

/-- One normalized track record, as built by the dict literal at
`mbz2cue.py` lines 59-65. -/
structure Track where
  track_number : String
  title : String
  artist : String
  length : String
  disc_number : Nat
deriving DecidableEq

def defaultTrack : Track := ⟨"", "", "", "", 0⟩

/-- ASCII whitespace, as stripped by Python `str.strip()` /
`get_text(strip=True)` on the inputs this program sees. -/
def isPySpace (c : Char) : Bool :=
  c == ' ' || c == '\t' || c == '\n' || c == '\r' || c == '\x0b' || c == '\x0c'

/-- Python `str.strip()` at the character-list level: drop leading and
trailing whitespace. -/
def stripChars (l : List Char) : List Char :=
  ((l.dropWhile isPySpace).reverse.dropWhile isPySpace).reverse

/-- Python `str.strip()` on `String`s. -/
def pyStrip (s : String) : String := (stripChars s.toList).asString

/-- Accumulate a decimal digit string into a `Nat`; `none` on the first
non-digit character. -/
def digitsToNatAux : List Char → Nat → Option Nat
  | [], acc => some acc
  | c :: rest, acc =>
    if c.isDigit then digitsToNatAux rest (acc * 10 + (c.toNat - 48)) else none

/-- A nonempty all-digit string as a `Nat`, else `none`. -/
def digitsToNat : List Char → Option Nat
  | [] => none
  | l => digitsToNatAux l 0

/-- Model of Python `int(s)` on the decimal strings this program feeds it:
optional surrounding whitespace, an optional sign, then a nonempty run of
decimal digits; every other input raises ValueError, modelled as `none`. -/
def pyIntChars (l : List Char) : Option Int :=
  match stripChars l with
  | '-' :: rest => (digitsToNat rest).map (fun n => -(n : Int))
  | '+' :: rest => (digitsToNat rest).map (fun n => (n : Int))
  | l2 => (digitsToNat l2).map (fun n => (n : Int))

/-- Python `int(s)` on `String`s. -/
def pyIntParse (s : String) : Option Int := pyIntChars s.toList

/-- Python `s.split(sep)` for a single-character separator: the chunks
between occurrences of `sep`, empty chunks included. -/
def splitOnCharAux (sep : Char) : List Char → List Char → List (List Char)
  | [], acc => [acc.reverse]
  | c :: rest, acc =>
    if c == sep then acc.reverse :: splitOnCharAux sep rest []
    else splitOnCharAux sep rest (c :: acc)

def splitOnChar (sep : Char) (l : List Char) : List (List Char) :=
  splitOnCharAux sep l []

/-- Line 94: `minutes, seconds = map(int, track['length'].split(':'))`.
The unpacking needs exactly two fields and both `int` calls must succeed;
any other shape raises ValueError, modelled as `none`. -/
def parseLength (s : String) : Option (Int × Int) :=
  match (splitOnChar ':' s.toList).map pyIntChars with
  | [some m, some sec] => some (m, sec)
  | _ => none

/-- Python `s.replace(old, new)` for nonempty `old`: replace every
non-overlapping occurrence, scanning left to right.  The first argument is
fuel, always called with at least the length of the subject list, so the
fuel-exhausted branch is never taken. -/
def replaceAux (old new : List Char) : Nat → List Char → List Char
  | _, [] => []
  | 0, s => s
  | fuel + 1, c :: rest =>
    if old.isPrefixOf (c :: rest) then
      new ++ replaceAux old new fuel (rest.drop (old.length - 1))
    else
      c :: replaceAux old new fuel rest

/-- Python `s.replace(old, new)` on `String`s (`old` nonempty). -/
def pyReplace (s old new : String) : String :=
  (replaceAux old.toList new.toList s.toList.length s.toList).asString

/-- Digits of `n`, most significant first; fuel-driven (fuel `n + 1` is
always enough since `n / 10 < n` for `n ≥ 10`). -/
def natToCharsAux : Nat → Nat → List Char → List Char
  | 0, _, acc => acc
  | fuel + 1, n, acc =>
    let d := Char.ofNat (48 + n % 10)
    if n < 10 then d :: acc else natToCharsAux fuel (n / 10) (d :: acc)

/-- Python `str(n)` for a nonnegative integer. -/
def natToChars (n : Nat) : List Char := natToCharsAux (n + 1) n []

def natStr (n : Nat) : String := (natToChars n).asString

/-- Python `str(i)` for an integer. -/
def intToChars : Int → List Char
  | Int.ofNat m => natToChars m
  | Int.negSucc m => '-' :: natToChars (m + 1)

/-- Python format `f"{n:02}"`: the decimal representation zero-padded to
width 2 (a sign counts toward the width). -/
def pad2Int (n : Int) : String :=
  (if (intToChars n).length < 2 then '0' :: intToChars n else intToChars n).asString

/-- Lines 95-97: the INDEX timestamp computed from the pre-track running
total.  Python `//` is floor division and `%` a floor modulus, hence
`Int.fdiv` / `Int.emod`. -/
def indexTime (total : Int) : String :=
  pad2Int (total.fdiv 60) ++ ":" ++ pad2Int (total.emod 60) ++ ":00"

/-- Lines 94-104, one loop iteration: parse the length, parse the track
number (both before any write of this track lands), and return the four
written strings together with the advanced running total; `none` models
the ValueError that aborts the disc with nothing of this track written. -/
def trackWrites (t : Track) (total : Int) : Option (List String × Int) :=
  match parseLength t.length with
  | none => none
  | some (m, s) =>
    match pyIntParse t.track_number with
    | none => none
    | some n =>
      some (["\nTRACK " ++ pad2Int n ++ " AUDIO\n",
             "    TITLE \"" ++ t.title ++ "\"\n",
             "    PERFORMER \"" ++ t.artist ++ "\"\n",
             "    INDEX 01 " ++ indexTime total ++ "\n"],
            total + (m * 60 + s))

/-- Lines 92-104: the per-disc track loop.  Returns every string written
before the loop ended, and `true` iff the loop ran to completion (a parse
failure leaves the writes of the earlier, complete iterations in place
and stops). -/
def encodeTracks : List Track → Int → List String × Bool
  | [], _ => ([], true)
  | t :: rest, total =>
    match trackWrites t total with
    | none => ([], false)
    | some (ws, total2) =>
      (ws ++ (encodeTracks rest total2).1, (encodeTracks rest total2).2)

/-- Lines 88-90: the three header writes of a disc's cue file.  The
`(Disc N)` suffix is emitted unconditionally. -/
def headerWrites (album_title performer wav_filename : String) (disc_number : Nat) :
    List String :=
  ["PERFORMER \"" ++ performer ++ "\"\n",
   "TITLE \"" ++ album_title ++ " (Disc " ++ natStr disc_number ++ ")\"\n",
   "FILE \"" ++ wav_filename ++ "\" WAVE\n"]

/-- Line 85: `filename.replace(".cue", f"_disc{disc_number}.cue")`. -/
def filename_disc (filename : String) (disc_number : Nat) : String :=
  pyReplace filename ".cue" ("_disc" ++ natStr disc_number ++ ".cue")

/-- Concatenation of a list of written strings: the content of a file
whose writes those were. -/
def strConcat : List String → String
  | [] => ""
  | w :: rest => w ++ strConcat rest

/-- Lines 83-106: `create_cue_sheet`.  Returns the files on disk when the
call ends, in write order, and `true` iff no exception escaped.  An empty
disc list raises IndexError at `disc_tracklist[0]` before its file is even
opened; a length/track-number parse failure leaves that disc's partial
file (header plus the complete earlier track blocks — the `with` block
closes the handle) and propagates, so no later disc is processed. -/
def create_cue_sheet :
    List (List Track) → String → String → String → String →
    List (String × String) × Bool
  | [], _, _, _, _ => ([], true)
  | d :: rest, album, performer, filename, wav =>
    match d with
    | [] => ([], false)
    | t0 :: _ =>
      let fname := filename_disc filename t0.disc_number
      let content :=
        strConcat (headerWrites album performer wav t0.disc_number ++
          (encodeTracks d 0).1)
      if (encodeTracks d 0).2 then
        ((fname, content) :: (create_cue_sheet rest album performer filename wav).1,
         (create_cue_sheet rest album performer filename wav).2)
      else
        ([(fname, content)], false)

/-- A `td` cell: its own text content, and the text of a nested `bdi`
element when one exists. -/
structure Cell where
  text : String
  bdi : Option String
deriving DecidableEq

def defaultCell : Cell := ⟨"", none⟩

/-- A candidate data row (`tr` with class `odd`/`even`): its `td` cells. -/
structure Row where
  cells : List Cell
deriving DecidableEq

/-- A `table` with class `tbl medium`: its candidate data rows. -/
structure Table where
  rows : List Row
deriving DecidableEq

/-- The page's `h1` heading: the text of a nested `bdi` when present. -/
structure Heading where
  bdi : Option String
deriving DecidableEq

/-- The parsed document: the `h1` heading when present, and the
`tbl medium` tables in document order. -/
structure Doc where
  h1 : Option Heading
  discTables : List Table
deriving DecidableEq

/-- Lines 55-56: `columns[i].find('bdi').get_text(strip=True) if
columns[i].find('bdi') else columns[i].get_text(strip=True)`. -/
def cellBdiText (c : Cell) : String :=
  match c.bdi with
  | some b => pyStrip b
  | none => pyStrip c.text

/-- Lines 51-66: the row loop of one disc table.  Returns the extracted
tracks and the `(level, message)` debug entries the loop emits: a row with
fewer than 5 cells is skipped with no track and no output; an accepted row
appends one track and one level-3 trace line. -/
def extractRows (rows : List Row) (disc_num : Nat) : List Track × List (Nat × String) :=
  match rows with
  | [] => ([], [])
  | row :: rest =>
    if 5 ≤ row.cells.length then
      let track_number := pyStrip (row.cells.getD 0 defaultCell).text
      let title := cellBdiText (row.cells.getD 1 defaultCell)
      let artist := cellBdiText (row.cells.getD 2 defaultCell)
      let len := pyStrip (row.cells.getD 4 defaultCell).text
      let t : Track := ⟨track_number, title, artist, len, disc_num⟩
      let msg := "Extracted track: " ++ track_number ++ " - " ++ title ++
        " - " ++ artist ++ " - " ++ len
      (t :: (extractRows rest disc_num).1, (3, msg) :: (extractRows rest disc_num).2)
    else extractRows rest disc_num

/-- Lines 31-37: album title resolution; the sentinel is used when the
`h1` heading or its nested `bdi` is absent. -/
def albumTitle (doc : Doc) : String :=
  match doc.h1 with
  | some hd =>
    match hd.bdi with
    | some b => pyStrip b
    | none => "Unknown Album"
  | none => "Unknown Album"

/-- Lines 47-69: the disc loop, `enumerate(disc_tables, start=1)`.  A disc
with zero accepted rows still contributes an (empty) entry. -/
def extractDiscs (tables : List Table) (disc_num : Nat) : List (List Track) :=
  match tables with
  | [] => []
  | tb :: rest => (extractRows tb.rows disc_num).1 :: extractDiscs rest (disc_num + 1)

/-- Lines 29-71, `extract_tracklist` after a successful fetch: resolve the
album title, then return `(None, title)` when no `tbl medium` table exists,
else the per-disc track lists with the title. -/
def extract_tracklist (doc : Doc) : Option (List (List Track)) × String :=
  match doc.discTables with
  | [] => (none, albumTitle doc)
  | _ => (some (extractDiscs doc.discTables 1), albumTitle doc)

/-- The output base name computation of lines 123-124 in isolation:
`--output_file` when given, else `f"{album_title}.cue"`, then `/` replaced
by `_`. -/
def outputBase (output_file : Option String) (album_title : String) : String :=
  pyReplace (match output_file with
    | some s => s
    | none => album_title ++ ".cue") "/" "_"

/-- Lines 120-127, the tail of `main` after a successful fetch: Python's
`if tracklists:` is falsy on both `None` and `[]`; otherwise the output
base name is computed and the encoder runs once over all discs. -/
def mainFiles (doc : Doc) (output_file : Option String) (wav : String) :
    List (String × String) × Bool :=
  match extract_tracklist doc with
  | (none, _) => ([], true)
  | (some tls, album_title) =>
    if tls.isEmpty then ([], true)
    else
      create_cue_sheet tls album_title "Various Artists"
        (outputBase output_file album_title) wav

/-- Duration of a track in seconds, from its parsed `length` (0 when the
length does not parse; only used under a parses-successfully hypothesis). -/
def trackDurSecs (t : Track) : Int :=
  match parseLength t.length with
  | some (m, s) => m * 60 + s
  | none => 0

lemma asString_toList (s : String) : s.toList.asString = s := rfl

lemma toList_asString (l : List Char) : l.asString.toList = l := rfl

lemma replaceAux_nil (old new : List Char) (fuel : Nat) :
    replaceAux old new fuel [] = [] := by
  cases fuel <;> rfl

lemma replaceAux_cons (old new : List Char) (f : Nat) (c : Char) (rest : List Char) :
    replaceAux old new (f + 1) (c :: rest) =
      if old.isPrefixOf (c :: rest) then
        new ++ replaceAux old new f (rest.drop (old.length - 1))
      else c :: replaceAux old new f rest := rfl

/-- Replacing `/` by `_` leaves no `/` in the result. -/
lemma replaceAux_slash_all :
    ∀ (fuel : Nat) (l : List Char), l.length ≤ fuel →
      (replaceAux "/".toList "_".toList fuel l).all (fun c => c != '/') = true := by
  intro fuel
  induction fuel with
  | zero =>
    intro l hl
    match l with
    | [] => rfl
  | succ fuel ih =>
    intro l hl
    match l with
    | [] => rfl
    | c :: rest =>
      have hrest : rest.length ≤ fuel := by
        simp only [List.length_cons] at hl
        omega
      cases hpre : "/".toList.isPrefixOf (c :: rest) with
      | true =>
        simp only [replaceAux, hpre, if_true]
        have hdrop : rest.drop ("/".toList.length - 1) = rest := by
          rw [show "/".toList.length - 1 = 0 by decide]
          exact rest.drop_zero
        rw [hdrop, List.all_append, Bool.and_eq_true]
        exact ⟨by decide, ih rest hrest⟩
      | false =>
        simp only [replaceAux, hpre, Bool.false_eq_true, if_false]
        have hc : c ≠ '/' := by
          intro hc
          subst hc
          rw [show "/".toList = ['/'] from rfl] at hpre
          simp [List.isPrefixOf] at hpre
        rw [List.all_cons, Bool.and_eq_true]
        refine ⟨?_, ih rest hrest⟩
        simp only [ne_eq, bne_iff_ne]
        exact fun hemp => hc hemp

/-- When `old` occurs nowhere in `l` (no suffix of `l` starts with it),
replacement is the identity. -/
lemma replaceAux_nochange (old new : List Char) :
    ∀ (fuel : Nat) (l : List Char), l.length ≤ fuel →
      (∀ t ∈ l.tails, old.isPrefixOf t = false) →
      replaceAux old new fuel l = l := by
  intro fuel
  induction fuel with
  | zero =>
    intro l hl _
    match l with
    | [] => rfl
  | succ fuel ih =>
    intro l hl h
    match l with
    | [] => rfl
    | c :: rest =>
      have hrest : rest.length ≤ fuel := by
        simp only [List.length_cons] at hl
        omega
      have hpre : old.isPrefixOf (c :: rest) = false :=
        h (c :: rest) ((List.mem_tails _ _).mpr (List.suffix_refl _))
      simp only [replaceAux, hpre, Bool.false_eq_true, if_false]
      have hsub : ∀ t ∈ rest.tails, old.isPrefixOf t = false := by
        intro t ht
        exact h t ((List.mem_tails _ _).mpr
          (((List.mem_tails _ _).mp ht).trans (List.suffix_cons c rest)))
      rw [ih rest hrest hsub]

/-- When the only occurrence of nonempty `old` in `stem ++ old` is the
final one, replacement rewrites exactly that final occurrence. -/
lemma replaceAux_at_end (old new : List Char) (hold : old ≠ []) :
    ∀ (stem : List Char) (fuel : Nat), (stem ++ old).length ≤ fuel →
      (∀ t ∈ (stem ++ old).tails, old.isPrefixOf t = true → t = old) →
      replaceAux old new fuel (stem ++ old) = stem ++ new := by
  intro stem
  induction stem with
  | nil =>
    intro fuel hf _
    simp only [List.nil_append] at *
    cases old with
    | nil => exact absurd rfl hold
    | cons o orest =>
      cases fuel with
      | zero => simp at hf
      | succ f =>
        have hpre : (o :: orest).isPrefixOf (o :: orest) = true :=
          List.isPrefixOf_iff_prefix.mpr (List.prefix_refl _)
        simp only [replaceAux, hpre, if_true]
        have hd : orest.drop ((o :: orest).length - 1) = [] := by
          simp only [List.length_cons, Nat.add_sub_cancel]
          exact List.drop_length _
        rw [hd, replaceAux_nil, List.append_nil]
  | cons c stem' ih =>
    intro fuel hf h
    cases fuel with
    | zero => simp at hf
    | succ f =>
      have hpre : old.isPrefixOf (c :: (stem' ++ old)) = false := by
        cases hp : old.isPrefixOf (c :: (stem' ++ old)) with
        | false => rfl
        | true =>
          have heq := h (c :: (stem' ++ old))
            ((List.mem_tails _ _).mpr (by rw [List.cons_append])) hp
          have hlen := congrArg List.length heq
          simp only [List.length_cons, List.length_append] at hlen
          omega
      have hlen' : (stem' ++ old).length ≤ f := by
        simp only [List.cons_append, List.length_cons] at hf
        omega
      have hsub : ∀ t ∈ (stem' ++ old).tails, old.isPrefixOf t = true → t = old := by
        intro t ht hp
        refine h t ((List.mem_tails _ _).mpr ?_) hp
        rw [List.cons_append]
        exact ((List.mem_tails _ _).mp ht).trans (List.suffix_cons c _)
      simp only [List.cons_append]
      rw [replaceAux_cons, if_neg (by simp [hpre]), ih f hlen' hsub]

/-- C10: the `/` → `_` substitution of lines 123-124 is applied to the
output base name on both the `--output_file` branch and the
album-title-default branch, so the base name never contains `/` and no
per-disc path can point into a subdirectory. -/
theorem claim_c10 :
    ∀ (o : Option String) (title : String),
      (∀ s, outputBase (some s) title = pyReplace s "/" "_") ∧
      outputBase none title = pyReplace (title ++ ".cue") "/" "_" ∧
      ((outputBase o title).toList.all (fun c => c != '/')) = true := by
  intro o title
  refine ⟨fun s => rfl, rfl, ?_⟩
  exact replaceAux_slash_all _ _ le_rfl

/-- C9: when the base filename does not contain the substring ".cue", the
derived per-disc filename is the base unchanged for every disc number, so
every file the encoder writes in one invocation goes to the very same
path (later discs overwrite earlier ones). -/
theorem claim_c9 (base : String)
    (h : (base.toList.tails.all (fun t => !(".cue".toList.isPrefixOf t))) = true) :
    (∀ n, filename_disc base n = base) ∧
    ∀ (discs : List (List Track)) (album performer wav : String) (f : String × String),
      f ∈ (create_cue_sheet discs album performer base wav).1 → f.1 = base := by
  have h' : ∀ t ∈ base.toList.tails, ".cue".toList.isPrefixOf t = false := by
    intro t ht
    have := (List.all_eq_true.mp h) t ht
    simpa using this
  have hrep : ∀ n, filename_disc base n = base := by
    intro n
    show (replaceAux ".cue".toList _ base.toList.length base.toList).asString = base
    rw [replaceAux_nochange _ _ _ _ le_rfl h']
    exact asString_toList base
  refine ⟨hrep, ?_⟩
  intro discs
  induction discs with
  | nil =>
    intro album performer wav f hf
    simp [create_cue_sheet] at hf
  | cons d rest ih =>
    intro album performer wav f hf
    match d with
    | [] => simp [create_cue_sheet] at hf
    | t0 :: d' =>
      simp only [create_cue_sheet] at hf
      by_cases hok : (encodeTracks (t0 :: d') 0).2 = true
      · rw [if_pos hok] at hf
        rcases List.mem_cons.mp hf with hf1 | hf2
        · rw [hf1]
          exact hrep t0.disc_number
        · exact ih album performer wav f hf2
      · rw [if_neg hok] at hf
        rcases List.mem_cons.mp hf with hf1 | hf2
        · rw [hf1]
          exact hrep t0.disc_number
        · simp at hf2

theorem claim_c9_witness :
    ("MyAlbum".toList.tails.all (fun t => !(".cue".toList.isPrefixOf t))) = true ∧
    filename_disc "MyAlbum" 1 = "MyAlbum" ∧ filename_disc "MyAlbum" 2 = "MyAlbum" :=
  ⟨by decide, (claim_c9 "MyAlbum" (by decide)).1 1, (claim_c9 "MyAlbum" (by decide)).1 2⟩

/-- C4 counterexample: for the base filename "MyAlbum.txt" (which does not
contain ".cue"), the derived filename for disc 1 is the base unchanged —
no disc-number marker is inserted before the ".txt" extension, contrary to
the claim's "for every base filename". -/
theorem claim_c4_counterexample :
    filename_disc "MyAlbum.txt" 1 = "MyAlbum.txt" ∧
    "MyAlbum.txt" ≠ "MyAlbum_disc1.txt" := by
  decide

/-- C4 (amended): for every base filename whose only occurrence of ".cue"
is its final extension, each disc's output filename is the base with
`_disc<n>` inserted immediately before the extension; in particular
"MyAlbum.cue" with discs 1 and 2 yields "MyAlbum_disc1.cue" and
"MyAlbum_disc2.cue" (see the witness). -/
theorem claim_c4 (stem : List Char) (n : Nat)
    (h : ∀ t ∈ (stem ++ ".cue".toList).tails,
      ".cue".toList.isPrefixOf t = true → t = ".cue".toList) :
    filename_disc (stem ++ ".cue".toList).asString n =
      (stem ++ ("_disc" ++ natStr n ++ ".cue").toList).asString := by
  show (replaceAux ".cue".toList (("_disc" ++ natStr n ++ ".cue").toList)
      (stem ++ ".cue".toList).length (stem ++ ".cue".toList)).asString = _
  rw [replaceAux_at_end _ _ (by decide) stem _ le_rfl h]

theorem claim_c4_witness :
    (∀ t ∈ ("MyAlbum".toList ++ ".cue".toList).tails,
      ".cue".toList.isPrefixOf t = true → t = ".cue".toList) ∧
    filename_disc ("MyAlbum".toList ++ ".cue".toList).asString 1 =
      ("MyAlbum".toList ++ ("_disc" ++ natStr 1 ++ ".cue").toList).asString ∧
    filename_disc "MyAlbum.cue" 1 = "MyAlbum_disc1.cue" ∧
    filename_disc "MyAlbum.cue" 2 = "MyAlbum_disc2.cue" :=
  ⟨by decide, claim_c4 ("MyAlbum".toList) 1 (by decide), by decide, by decide⟩

/-- C8: the extractor does produce a disc with zero accepted rows (here a
table whose single row has only 4 cells) and includes it in its result;
the encoder, reading `disc_tracklist[0]['disc_number']` unguarded at line
84, crashes (IndexError) on such a disc before opening or writing any
file, aborting the invocation. -/
theorem claim_c8 :
    extract_tracklist
        ⟨none, [⟨[⟨[defaultCell, defaultCell, defaultCell, defaultCell]⟩]⟩]⟩ =
      (some [[]], "Unknown Album") ∧
    ∀ (rest : List (List Track)) (album performer filename wav : String),
      create_cue_sheet ([] :: rest) album performer filename wav = ([], false) :=
  ⟨by decide, fun _ _ _ _ _ => rfl⟩

/-- C1 counterexample: one invocation over disc 1 (length "abc", which
does not parse) followed by disc 2 (all lengths and track numbers parse):
the only file produced is disc 1's partial file; disc 2's file
"out_disc2.cue" is never written, contrary to the claim that every other
disc whose tracks all parse still produces its file. -/
theorem claim_c1_counterexample :
    (create_cue_sheet
        [[⟨"1", "T1", "A1", "abc", 1⟩], [⟨"2", "T2", "A2", "3:45", 2⟩]]
        "Album" "Various Artists" "out.cue" "a.wav").1.map Prod.fst =
      ["out_disc1.cue"] ∧
    (encodeTracks [⟨"2", "T2", "A2", "3:45", 2⟩] 0).2 = true ∧
    filename_disc "out.cue" 2 = "out_disc2.cue" ∧
    ("out_disc2.cue" : String) ∉ ["out_disc1.cue"] := by
  decide

/-- A nonempty disc whose track loop completes contributes its file, and
processing continues with the remaining discs. -/
lemma create_cue_sheet_cons_ok (d : List Track) (rest : List (List Track))
    (album performer filename wav : String)
    (hne : d ≠ []) (hok : (encodeTracks d 0).2 = true) :
    create_cue_sheet (d :: rest) album performer filename wav =
      ((filename_disc filename (d.headD defaultTrack).disc_number,
        strConcat (headerWrites album performer wav (d.headD defaultTrack).disc_number ++
          (encodeTracks d 0).1)) ::
        (create_cue_sheet rest album performer filename wav).1,
       (create_cue_sheet rest album performer filename wav).2) := by
  match d, hne with
  | t0 :: d', _ =>
    simp only [create_cue_sheet, List.headD_cons]
    rw [if_pos hok]

/-- A nonempty disc whose track loop fails leaves exactly its partial file
and stops the invocation. -/
lemma create_cue_sheet_cons_bad (d : List Track) (rest : List (List Track))
    (album performer filename wav : String)
    (hne : d ≠ []) (hbad : (encodeTracks d 0).2 = false) :
    create_cue_sheet (d :: rest) album performer filename wav =
      ([(filename_disc filename (d.headD defaultTrack).disc_number,
         strConcat (headerWrites album performer wav (d.headD defaultTrack).disc_number ++
           (encodeTracks d 0).1))], false) := by
  match d, hne with
  | t0 :: d', _ =>
    simp only [create_cue_sheet, List.headD_cons]
    rw [if_neg (by simp [hbad])]

/-- C1 (amended): a parse failure on one track's length or track number
aborts not only that disc's file write (leaving that disc's partial file)
but the whole encoder invocation: the files produced are exactly those of
the discs before the failing one plus the failing disc's partial file;
discs after the failing one are not processed, even when all their tracks
parse. -/
theorem claim_c1 (pre : List (List Track)) (bad : List Track)
    (post : List (List Track)) (album performer filename wav : String)
    (hpre : ∀ d ∈ pre, d ≠ [] ∧ (encodeTracks d 0).2 = true)
    (hbadne : bad ≠ []) (hbad : (encodeTracks bad 0).2 = false) :
    ((create_cue_sheet (pre ++ bad :: post) album performer filename wav).1.map
        Prod.fst =
      pre.map (fun d => filename_disc filename (d.headD defaultTrack).disc_number) ++
        [filename_disc filename (bad.headD defaultTrack).disc_number]) ∧
    (create_cue_sheet (pre ++ bad :: post) album performer filename wav).2 = false := by
  induction pre with
  | nil =>
    rw [List.nil_append,
      create_cue_sheet_cons_bad bad post album performer filename wav hbadne hbad]
    simp
  | cons d pre' ih =>
    have hd := hpre d (List.mem_cons_self d pre')
    have ih' := ih (fun e he => hpre e (List.mem_cons_of_mem d he))
    rw [List.cons_append,
      create_cue_sheet_cons_ok d (pre' ++ bad :: post) album performer filename wav
        hd.1 hd.2]
    refine ⟨?_, ih'.2⟩
    simp only [List.map_cons, List.cons_append]
    rw [ih'.1]

theorem claim_c1_witness :
    (∀ d ∈ [[(⟨"1", "T0", "A0", "2:00", 1⟩ : Track)]],
      d ≠ [] ∧ (encodeTracks d 0).2 = true) ∧
    ([(⟨"2", "T1", "A1", "abc", 2⟩ : Track)] ≠ []) ∧
    (encodeTracks [(⟨"2", "T1", "A1", "abc", 2⟩ : Track)] 0).2 = false ∧
    (((create_cue_sheet
          ([[⟨"1", "T0", "A0", "2:00", 1⟩]] ++
            [(⟨"2", "T1", "A1", "abc", 2⟩ : Track)] ::
              [[⟨"3", "T2", "A2", "3:45", 3⟩]])
          "Album" "Various Artists" "out.cue" "a.wav").1.map Prod.fst =
        [[(⟨"1", "T0", "A0", "2:00", 1⟩ : Track)]].map
            (fun d => filename_disc "out.cue" (d.headD defaultTrack).disc_number) ++
          [filename_disc "out.cue"
            ([(⟨"2", "T1", "A1", "abc", 2⟩ : Track)].headD defaultTrack).disc_number]) ∧
      (create_cue_sheet
          ([[⟨"1", "T0", "A0", "2:00", 1⟩]] ++
            [(⟨"2", "T1", "A1", "abc", 2⟩ : Track)] ::
              [[⟨"3", "T2", "A2", "3:45", 3⟩]])
          "Album" "Various Artists" "out.cue" "a.wav").2 = false) :=
  ⟨by decide, by decide, by decide,
    claim_c1 [[⟨"1", "T0", "A0", "2:00", 1⟩]] [⟨"2", "T1", "A1", "abc", 2⟩]
      [[⟨"3", "T2", "A2", "3:45", 3⟩]] "Album" "Various Artists" "out.cue" "a.wav"
      (by decide) (by decide) (by decide)⟩

/-- When every track of a list parses, the track loop completes, writes
exactly 4 strings per track, and the 4th write of the `i`-th track group —
its INDEX 01 line — carries the timestamp of the running total before
track `i`, i.e. the initial total plus the sum of the durations of the
first `i` tracks. -/
lemma encodeTracks_complete :
    ∀ (tracks : List Track) (total : Int),
      (∀ t ∈ tracks, (parseLength t.length).isSome ∧ (pyIntParse t.track_number).isSome) →
      (encodeTracks tracks total).2 = true ∧
      (encodeTracks tracks total).1.length = 4 * tracks.length ∧
      ∀ i < tracks.length,
        (encodeTracks tracks total).1.get? (4 * i + 3) =
          some ("    INDEX 01 " ++
            indexTime (total + ((tracks.take i).map trackDurSecs).sum) ++ "\n") := by
  intro tracks
  induction tracks with
  | nil =>
    intro total _
    refine ⟨rfl, rfl, ?_⟩
    intro i hi
    simp at hi
  | cons t rest ih =>
    intro total h
    obtain ⟨hL, hN⟩ := h t (List.mem_cons_self t rest)
    obtain ⟨⟨m, s⟩, hm⟩ := Option.isSome_iff_exists.mp hL
    obtain ⟨n, hn⟩ := Option.isSome_iff_exists.mp hN
    have hrest := ih (total + (m * 60 + s)) (fun e he => h e (List.mem_cons_of_mem t he))
    have htw : trackWrites t total =
        some (["\nTRACK " ++ pad2Int n ++ " AUDIO\n",
               "    TITLE \"" ++ t.title ++ "\"\n",
               "    PERFORMER \"" ++ t.artist ++ "\"\n",
               "    INDEX 01 " ++ indexTime total ++ "\n"],
              total + (m * 60 + s)) := by
      simp [trackWrites, hm, hn]
    have henc : encodeTracks (t :: rest) total =
        (["\nTRACK " ++ pad2Int n ++ " AUDIO\n",
          "    TITLE \"" ++ t.title ++ "\"\n",
          "    PERFORMER \"" ++ t.artist ++ "\"\n",
          "    INDEX 01 " ++ indexTime total ++ "\n"] ++
            (encodeTracks rest (total + (m * 60 + s))).1,
         (encodeTracks rest (total + (m * 60 + s))).2) := by
      simp [encodeTracks, htw]
    rw [henc]
    refine ⟨hrest.1, ?_, ?_⟩
    · simp only [List.length_append, List.length_cons, List.length_nil, hrest.2.1]
      omega
    · intro i hi
      cases i with
      | zero =>
        have harg : total + (((t :: rest).take 0).map trackDurSecs).sum = total := by
          simp
        rw [harg]
        rfl
      | succ i =>
        have hi' : i < rest.length := by
          simp only [List.length_cons] at hi
          omega
        have hidx : 4 * (i + 1) + 3 = (4 * i + 3) + 4 := by ring
        rw [hidx]
        have hstep :
            (["\nTRACK " ++ pad2Int n ++ " AUDIO\n",
              "    TITLE \"" ++ t.title ++ "\"\n",
              "    PERFORMER \"" ++ t.artist ++ "\"\n",
              "    INDEX 01 " ++ indexTime total ++ "\n"] ++
                (encodeTracks rest (total + (m * 60 + s))).1).get? ((4 * i + 3) + 4) =
              (encodeTracks rest (total + (m * 60 + s))).1.get? (4 * i + 3) := rfl
        rw [hstep, hrest.2.2 i hi']
        have harg : total + (m * 60 + s) + ((rest.take i).map trackDurSecs).sum =
            total + (((t :: rest).take (i + 1)).map trackDurSecs).sum := by
          rw [List.take_succ_cons, List.map_cons, List.sum_cons]
          have ht : trackDurSecs t = m * 60 + s := by simp [trackDurSecs, hm]
          rw [ht]
          ring
        rw [harg]

/-- C2: for a disc whose tracks all parse, the INDEX 01 timestamp emitted
for track `i+1` (the 4th write of its group of 4) encodes — through
`indexTime`, i.e. as `floor(total/60)` zero-padded minutes and
`total mod 60` zero-padded seconds with a literal `00` frame field —
exactly the sum of the durations in seconds of tracks `1..i` of that same
disc (the loop starts its running total at 0). -/
theorem claim_c2 (tracks : List Track)
    (h : ∀ t ∈ tracks, (parseLength t.length).isSome ∧ (pyIntParse t.track_number).isSome) :
    (encodeTracks tracks 0).2 = true ∧
    (encodeTracks tracks 0).1.length = 4 * tracks.length ∧
    ∀ i < tracks.length,
      (encodeTracks tracks 0).1.get? (4 * i + 3) =
        some ("    INDEX 01 " ++
          indexTime (((tracks.take i).map trackDurSecs).sum) ++ "\n") := by
  have hc := encodeTracks_complete tracks 0 h
  refine ⟨hc.1, hc.2.1, ?_⟩
  intro i hi
  rw [hc.2.2 i hi, zero_add]

theorem claim_c2_witness :
    (∀ t ∈ [(⟨"1", "Intro", "ArtistA", "3:45", 1⟩ : Track),
            ⟨"2", "Outro", "ArtistB", "4:10", 1⟩],
      (parseLength t.length).isSome ∧ (pyIntParse t.track_number).isSome) ∧
    (encodeTracks [(⟨"1", "Intro", "ArtistA", "3:45", 1⟩ : Track),
        ⟨"2", "Outro", "ArtistB", "4:10", 1⟩] 0).1.get? (4 * 0 + 3) =
      some "    INDEX 01 00:00:00\n" ∧
    (encodeTracks [(⟨"1", "Intro", "ArtistA", "3:45", 1⟩ : Track),
        ⟨"2", "Outro", "ArtistB", "4:10", 1⟩] 0).1.get? (4 * 1 + 3) =
      some "    INDEX 01 03:45:00\n" := by
  refine ⟨by decide, ?_, ?_⟩
  · rw [(claim_c2 [⟨"1", "Intro", "ArtistA", "3:45", 1⟩,
      ⟨"2", "Outro", "ArtistB", "4:10", 1⟩] (by decide)).2.2 0 (by decide)]
    decide
  · rw [(claim_c2 [⟨"1", "Intro", "ArtistA", "3:45", 1⟩,
      ⟨"2", "Outro", "ArtistB", "4:10", 1⟩] (by decide)).2.2 1 (by decide)]
    decide

/-- C3: for a nonempty disc whose first track's length parses, whatever
the loop emits for the first track starts at the zero running total: the
4th write — when the first track's block is emitted at all (its track
number must also parse, else nothing is written) — is the INDEX 01 line
with timestamp 00:00:00.  `encodeTracks` is invoked with total 0 for every
disc by `create_cue_sheet`, so each disc's first track starts at zero. -/
theorem claim_c3 (t : Track) (rest : List Track)
    (h : (parseLength t.length).isSome) :
    (encodeTracks (t :: rest) 0).1 = [] ∨
    (encodeTracks (t :: rest) 0).1.get? 3 = some "    INDEX 01 00:00:00\n" := by
  obtain ⟨⟨m, s⟩, hm⟩ := Option.isSome_iff_exists.mp h
  cases hn : pyIntParse t.track_number with
  | none =>
    left
    simp [encodeTracks, trackWrites, hm, hn]
  | some n =>
    right
    have htw : trackWrites t 0 =
        some (["\nTRACK " ++ pad2Int n ++ " AUDIO\n",
               "    TITLE \"" ++ t.title ++ "\"\n",
               "    PERFORMER \"" ++ t.artist ++ "\"\n",
               "    INDEX 01 " ++ indexTime 0 ++ "\n"],
              0 + (m * 60 + s)) := by
      simp [trackWrites, hm, hn]
    have henc : encodeTracks (t :: rest) 0 =
        (["\nTRACK " ++ pad2Int n ++ " AUDIO\n",
          "    TITLE \"" ++ t.title ++ "\"\n",
          "    PERFORMER \"" ++ t.artist ++ "\"\n",
          "    INDEX 01 " ++ indexTime 0 ++ "\n"] ++
            (encodeTracks rest (0 + (m * 60 + s))).1,
         (encodeTracks rest (0 + (m * 60 + s))).2) := by
      simp [encodeTracks, htw]
    rw [henc]
    rfl

theorem claim_c3_witness :
    ((parseLength (Track.length ⟨"1", "Intro", "ArtistA", "3:45", 1⟩)).isSome) ∧
    ((encodeTracks [(⟨"1", "Intro", "ArtistA", "3:45", 1⟩ : Track),
        ⟨"2", "Outro", "ArtistB", "4:10", 1⟩] 0).1 = [] ∨
      (encodeTracks [(⟨"1", "Intro", "ArtistA", "3:45", 1⟩ : Track),
          ⟨"2", "Outro", "ArtistB", "4:10", 1⟩] 0).1.get? 3 =
        some "    INDEX 01 00:00:00\n") :=
  ⟨by decide, claim_c3 ⟨"1", "Intro", "ArtistA", "3:45", 1⟩
    [⟨"2", "Outro", "ArtistB", "4:10", 1⟩] (by decide)⟩

/-- C5: a table row contributes a track iff it has at least 5 cells.  A
row with fewer contributes nothing at all — no track and no log entry
(silent skip); an accepted row contributes exactly one track whose
`track_number` is cell 0's trimmed text, `title` cell 1's (bdi-preferring)
trimmed text, `artist` cell 2's (bdi-preferring) trimmed text and `length`
cell 4's trimmed text, plus one level-3 trace entry; the extracted track
count grows by 1 exactly on accepted rows. -/
theorem claim_c5 (row : Row) (rest : List Row) (disc_num : Nat) :
    (row.cells.length < 5 →
      extractRows (row :: rest) disc_num = extractRows rest disc_num) ∧
    (5 ≤ row.cells.length →
      extractRows (row :: rest) disc_num =
        ((⟨pyStrip (row.cells.getD 0 defaultCell).text,
           cellBdiText (row.cells.getD 1 defaultCell),
           cellBdiText (row.cells.getD 2 defaultCell),
           pyStrip (row.cells.getD 4 defaultCell).text,
           disc_num⟩ : Track) :: (extractRows rest disc_num).1,
         (3, "Extracted track: " ++ pyStrip (row.cells.getD 0 defaultCell).text ++
            " - " ++ cellBdiText (row.cells.getD 1 defaultCell) ++
            " - " ++ cellBdiText (row.cells.getD 2 defaultCell) ++
            " - " ++ pyStrip (row.cells.getD 4 defaultCell).text) ::
           (extractRows rest disc_num).2)) ∧
    (extractRows (row :: rest) disc_num).1.length =
      (if 5 ≤ row.cells.length then 1 else 0) + (extractRows rest disc_num).1.length := by
  by_cases hlen : 5 ≤ row.cells.length
  · refine ⟨fun hlt => absurd hlen (by omega), fun _ => ?_, ?_⟩
    · simp only [extractRows, if_pos hlen]
    · simp only [extractRows, if_pos hlen, List.length_cons]
      omega
  · refine ⟨fun _ => ?_, fun hge => absurd hge hlen, ?_⟩
    · simp only [extractRows, if_neg hlen]
    · simp only [extractRows, if_neg hlen]
      omega

theorem claim_c5_witness :
    ((Row.mk [⟨" 1 ", none⟩, ⟨"x", some "T"⟩, ⟨"y", none⟩, ⟨"", none⟩]).cells.length < 5) ∧
    extractRows [⟨[⟨" 1 ", none⟩, ⟨"x", some "T"⟩, ⟨"y", none⟩, ⟨"", none⟩]⟩] 1 =
      extractRows [] 1 ∧
    (5 ≤ (Row.mk [⟨" 1 ", none⟩, ⟨"x", some "T"⟩, ⟨"y", none⟩, ⟨"", none⟩,
      ⟨" 3:45 ", none⟩]).cells.length) ∧
    extractRows [⟨[⟨" 1 ", none⟩, ⟨"x", some "T"⟩, ⟨"y", none⟩, ⟨"", none⟩,
        ⟨" 3:45 ", none⟩]⟩] 1 =
      ((⟨pyStrip (([⟨" 1 ", none⟩, ⟨"x", some "T"⟩, ⟨"y", none⟩, ⟨"", none⟩,
            ⟨" 3:45 ", none⟩] : List Cell).getD 0 defaultCell).text,
         cellBdiText (([⟨" 1 ", none⟩, ⟨"x", some "T"⟩, ⟨"y", none⟩, ⟨"", none⟩,
            ⟨" 3:45 ", none⟩] : List Cell).getD 1 defaultCell),
         cellBdiText (([⟨" 1 ", none⟩, ⟨"x", some "T"⟩, ⟨"y", none⟩, ⟨"", none⟩,
            ⟨" 3:45 ", none⟩] : List Cell).getD 2 defaultCell),
         pyStrip (([⟨" 1 ", none⟩, ⟨"x", some "T"⟩, ⟨"y", none⟩, ⟨"", none⟩,
            ⟨" 3:45 ", none⟩] : List Cell).getD 4 defaultCell).text,
         1⟩ : Track) :: (extractRows [] 1).1,
       (3, "Extracted track: " ++ pyStrip (([⟨" 1 ", none⟩, ⟨"x", some "T"⟩,
            ⟨"y", none⟩, ⟨"", none⟩, ⟨" 3:45 ", none⟩] : List Cell).getD 0 defaultCell).text ++
          " - " ++ cellBdiText (([⟨" 1 ", none⟩, ⟨"x", some "T"⟩, ⟨"y", none⟩,
            ⟨"", none⟩, ⟨" 3:45 ", none⟩] : List Cell).getD 1 defaultCell) ++
          " - " ++ cellBdiText (([⟨" 1 ", none⟩, ⟨"x", some "T"⟩, ⟨"y", none⟩,
            ⟨"", none⟩, ⟨" 3:45 ", none⟩] : List Cell).getD 2 defaultCell) ++
          " - " ++ pyStrip (([⟨" 1 ", none⟩, ⟨"x", some "T"⟩, ⟨"y", none⟩,
            ⟨"", none⟩, ⟨" 3:45 ", none⟩] : List Cell).getD 4 defaultCell).text) ::
         (extractRows [] 1).2) :=
  ⟨by decide,
    (claim_c5 ⟨[⟨" 1 ", none⟩, ⟨"x", some "T"⟩, ⟨"y", none⟩, ⟨"", none⟩]⟩ [] 1).1
      (by decide),
    by decide,
    (claim_c5 ⟨[⟨" 1 ", none⟩, ⟨"x", some "T"⟩, ⟨"y", none⟩, ⟨"", none⟩,
      ⟨" 3:45 ", none⟩]⟩ [] 1).2.1 (by decide)⟩

/-- C6: when zero `tbl medium` tables are found, the extractor returns a
null (None) disc sequence paired with the already-resolved album title —
the sentinel "Unknown Album" when the heading or its nested bdi is absent,
the bdi's trimmed text when present — and `main` then writes no files. -/
theorem claim_c6 (doc : Doc) (out : Option String) (wav : String)
    (h : doc.discTables = []) :
    extract_tracklist doc = (none, albumTitle doc) ∧
    ((doc.h1 = none ∨ ∃ hd, doc.h1 = some hd ∧ hd.bdi = none) →
      albumTitle doc = "Unknown Album") ∧
    (∀ hd b, doc.h1 = some hd → hd.bdi = some b → albumTitle doc = pyStrip b) ∧
    (mainFiles doc out wav).1 = [] := by
  have he : extract_tracklist doc = (none, albumTitle doc) := by
    simp [extract_tracklist, h]
  refine ⟨he, ?_, ?_, ?_⟩
  · rintro (h1 | ⟨hd, hhd, hbdi⟩)
    · simp [albumTitle, h1]
    · simp [albumTitle, hhd, hbdi]
  · intro hd b hhd hb
    simp [albumTitle, hhd, hb]
  · simp [mainFiles, he]

theorem claim_c6_witness :
    (Doc.mk (some ⟨some " My Album "⟩) []).discTables = [] ∧
    extract_tracklist ⟨some ⟨some " My Album "⟩, []⟩ =
      (none, albumTitle ⟨some ⟨some " My Album "⟩, []⟩) ∧
    (mainFiles ⟨some ⟨some " My Album "⟩, []⟩ none "a.wav").1 = [] ∧
    albumTitle ⟨some ⟨some " My Album "⟩, []⟩ = "My Album" ∧
    albumTitle ⟨none, []⟩ = "Unknown Album" :=
  ⟨rfl, (claim_c6 ⟨some ⟨some " My Album "⟩, []⟩ none "a.wav" rfl).1,
    (claim_c6 ⟨some ⟨some " My Album "⟩, []⟩ none "a.wav" rfl).2.2.2,
    by decide,
    (claim_c6 ⟨none, []⟩ none "a.wav" rfl).2.1 (Or.inl rfl)⟩

/-- C7: every file the encoder produces consists of, in order, a PERFORMER
line quoting the performer, a TITLE line quoting the album title suffixed
with " (Disc N)" (emitted unconditionally, hence in particular whenever
more than one disc exists, and consistently across invocations), and a
FILE line quoting the audio filename with the fixed WAVE tag — all before
any TRACK block (the remainder is exactly the track-loop writes). -/
theorem claim_c7 (discs : List (List Track)) (album performer fname wav : String)
    (file : String × String)
    (hf : file ∈ (create_cue_sheet discs album performer fname wav).1) :
    ∃ d, d ∈ discs ∧ d ≠ [] ∧
      file.1 = filename_disc fname (d.headD defaultTrack).disc_number ∧
      file.2 =
        "PERFORMER \"" ++ performer ++ "\"\n" ++
          ("TITLE \"" ++ album ++ " (Disc " ++
              natStr (d.headD defaultTrack).disc_number ++ ")\"\n" ++
            ("FILE \"" ++ wav ++ "\" WAVE\n" ++ strConcat (encodeTracks d 0).1)) := by
  induction discs with
  | nil => simp [create_cue_sheet] at hf
  | cons d rest ih =>
    match d with
    | [] => simp [create_cue_sheet] at hf
    | t0 :: d' =>
      by_cases hok : (encodeTracks (t0 :: d') 0).2 = true
      · rw [create_cue_sheet_cons_ok (t0 :: d') rest album performer fname wav
          (by simp) hok] at hf
        rcases List.mem_cons.mp hf with hf1 | hf2
        · exact ⟨t0 :: d', List.mem_cons_self _ _, by simp, by rw [hf1],
            by rw [hf1]; rfl⟩
        · obtain ⟨e, he, hrest⟩ := ih hf2
          exact ⟨e, List.mem_cons_of_mem _ he, hrest⟩
      · rw [create_cue_sheet_cons_bad (t0 :: d') rest album performer fname wav
          (by simp) (by simpa using hok)] at hf
        have hf1 := List.mem_singleton.mp hf
        exact ⟨t0 :: d', List.mem_cons_self _ _, by simp, by rw [hf1],
          by rw [hf1]; rfl⟩

set_option maxRecDepth 10000 in
theorem claim_c7_witness :
    ∃ d, d ∈ [[(⟨"1", "Intro", "ArtistA", "3:45", 1⟩ : Track)]] ∧ d ≠ [] ∧
      (("out_disc1.cue",
        "PERFORMER \"Various Artists\"\nTITLE \"Test Album (Disc 1)\"\nFILE \"album.wav\" WAVE\n\nTRACK 01 AUDIO\n    TITLE \"Intro\"\n    PERFORMER \"ArtistA\"\n    INDEX 01 00:00:00\n") :
          String × String).1 =
        filename_disc "out.cue" (d.headD defaultTrack).disc_number ∧
      (("out_disc1.cue",
        "PERFORMER \"Various Artists\"\nTITLE \"Test Album (Disc 1)\"\nFILE \"album.wav\" WAVE\n\nTRACK 01 AUDIO\n    TITLE \"Intro\"\n    PERFORMER \"ArtistA\"\n    INDEX 01 00:00:00\n") :
          String × String).2 =
        "PERFORMER \"" ++ "Various Artists" ++ "\"\n" ++
          ("TITLE \"" ++ "Test Album" ++ " (Disc " ++
              natStr (d.headD defaultTrack).disc_number ++ ")\"\n" ++
            ("FILE \"" ++ "album.wav" ++ "\" WAVE\n" ++ strConcat (encodeTracks d 0).1)) :=
  claim_c7 [[⟨"1", "Intro", "ArtistA", "3:45", 1⟩]] "Test Album" "Various Artists"
    "out.cue" "album.wav"
    ("out_disc1.cue",
      "PERFORMER \"Various Artists\"\nTITLE \"Test Album (Disc 1)\"\nFILE \"album.wav\" WAVE\n\nTRACK 01 AUDIO\n    TITLE \"Intro\"\n    PERFORMER \"ArtistA\"\n    INDEX 01 00:00:00\n")
    (by decide)

end Mbz2cue
